import Mathlib

/-!
# Verification of the ToolBox context-resolution and secure-dispatch core

This file is a shallow embedding, in Lean 4, of the core of the `tb` CLI:

* the Secure Executor (`executeCommandSecure` in `internal/cli`, the version
  that splits the base invocation with `strings.Fields`, resolves the program
  with `exec.LookPath` and starts the child with an explicit argv);
* the Dispatcher's manual flag-parsing loop and per-invocation pipeline
  (`handleDynamicCommand`);
* the built-in context Detector (`internal/context/detector.go`);
* the Plugin Manager (`RegisterPlugin`, `DetectContext`, `GetContexts`) and
  the example Docker / Kubernetes plugins;
* the two versions of the Command Registry present in the tree (the plain one
  and the revised one with nil-config guards).

External effects are modelled as explicit inputs: the filesystem is a
predicate on paths (a path is a list of segments of an absolute path), the
executable search path is a function `String → Option String`, and the child
process run is a function from the spawn request to an abstract outcome.
Go maps keyed by strings are modelled either as association lists (when the
code only ever looks keys up) or as functions `String → Option α` (when the
code overwrites entries); Go's randomized map iteration order is modelled by
the order of the underlying list, and the theorems below only state facts
that are independent of that order or make the required distinctness
explicit.  Error values that Go builds with `fmt.Errorf` are modelled as
inductive error types carrying the formatted data, so that distinct error
classes are distinct constructors.
-/

set_option autoImplicit false

/-- `config.ContextConfig`: the per-context command table
(`Commands map[string]string`), as an association list. -/
structure ContextConfig where
  commands : List (String × String)
  deriving DecidableEq, Repr

/-- `config.Config`: the merged context table.  The `Option` models a Go
`nil` map (a `Config` value whose `Contexts` field was never allocated). -/
structure GoConfig where
  contexts : Option (List (String × ContextConfig))
  deriving DecidableEq, Repr

/-! ## Secure Executor (`executeCommandSecure`, cli package) -/

/-- Accumulating scan behind `goFields`: `acc` holds the characters of the
current token in reverse. -/
def goFieldsAux : List Char → List Char → List String
  | [], acc => if acc = [] then [] else [String.mk acc.reverse]
  | c :: cs, acc =>
    if c.isWhitespace then
      if acc = [] then goFieldsAux cs []
      else String.mk acc.reverse :: goFieldsAux cs []
    else goFieldsAux cs (c :: acc)

/-- `strings.Fields`: split around runs of whitespace, dropping empty
tokens. -/
def goFields (s : String) : List String := goFieldsAux s.data []

/-- The request with which the child process is started.  `viaShell` is
`false` for the secure path (`exec.CommandContext(ctx, programPath, allArgs...)`)
and `true` only for the deprecated shell fallback.  `inheritStdio` and
`inheritEnv` record `cmd.Stdout/Stderr/Stdin = os.*` and
`cmd.Env = os.Environ()`. -/
structure Spawn where
  program : String
  argv : List String
  viaShell : Bool
  inheritStdio : Bool
  inheritEnv : Bool
  deriving DecidableEq, Repr

/-- The error classes of the executor: `"empty command"`,
`"command not found: %s"`, `"command timed out after %v"` and
`"command failed: %w"`. -/
inductive ExecError where
  | emptyCommand
  | programNotFound (program : String)
  | timedOut (timeout : Nat)
  | processFailed (info : String)
  deriving DecidableEq, Repr

/-- Outcome of `cmd.Run()`: success, or a failure carrying the underlying
error text together with the value of `ctx.Err() == context.DeadlineExceeded`
observed at the check on the error path. -/
inductive RunOutcome where
  | success
  | failure (info : String) (deadlineExpired : Bool)
  deriving DecidableEq, Repr

/-- The executor's environment: `exec.LookPath` and the actual child run. -/
structure ExecEnv where
  lookPath : String → Option String
  run : Spawn → RunOutcome

/-- Lines 473-499 of the secure executor: split the base command with
`strings.Fields`, reject an empty command, resolve the program on the search
path, and build the explicit argv `append(baseArgs, userArgs...)`. -/
def buildSpawn (lookPath : String → Option String) (baseCommand : String)
    (userArgs : List String) : Except ExecError Spawn :=
  match goFields baseCommand with
  | [] => .error .emptyCommand
  | program :: baseArgs =>
    match lookPath program with
    | none => .error (.programNotFound program)
    | some programPath =>
      .ok { program := programPath
            argv := baseArgs ++ userArgs
            viaShell := false
            inheritStdio := true
            inheritEnv := true }

/-- Lines 502-508: classify the result of `cmd.Run()`.  A failure is a
timeout exactly when `ctx.Err() == context.DeadlineExceeded`; otherwise it is
wrapped as `"command failed: %w"`. -/
def classifyRun (timeout : Nat) : RunOutcome → Except ExecError Unit
  | .success => .ok ()
  | .failure info deadlineExpired =>
    if deadlineExpired then .error (.timedOut timeout)
    else .error (.processFailed info)

/-- `executeCommandSecure(ctx, baseCommand, userArgs)`: build the spawn
request, run the child, classify the result. -/
def executeCommandSecure (env : ExecEnv) (timeout : Nat) (baseCommand : String)
    (userArgs : List String) : Except ExecError Unit :=
  match buildSpawn env.lookPath baseCommand userArgs with
  | .error e => .error e
  | .ok s => classifyRun timeout (env.run s)

/-- `executeCommandShellFallback` (deprecated in the source, never called by
the secure path): the only place a command interpreter is started; kept here
to ground the `viaShell` flag. -/
def shellFallbackSpawn (shell : String) (command : String) : Spawn :=
  { program := shell
    argv := ["-c", command]
    viaShell := true
    inheritStdio := true
    inheritEnv := true }

/-! ## Built-in context Detector (`internal/context/detector.go`)

A directory is the list of segments of its absolute path (the filesystem
root is `[]`), so `filepath.Dir` is `List.dropLast` and `filepath.Join dir m`
is `dir ++ [m]`.  The filesystem is a predicate `fs : List String → Bool`
telling which paths exist as regular files (`fileExists`). -/

/-- The marker table built by `NewDetector` (context name to marker files). -/
def defaultMarkers : List (String × List String) :=
  [ ("node",   ["package.json", "package-lock.json", "yarn.lock", "pnpm-lock.yaml"]),
    ("go",     ["go.mod", "go.sum"]),
    ("python", ["pyproject.toml", "setup.py", "requirements.txt", "Pipfile"]),
    ("rust",   ["Cargo.toml", "Cargo.lock"]),
    ("make",   ["Makefile", "makefile"]),
    ("ruby",   ["Gemfile", "Gemfile.lock"]),
    ("java",   ["pom.xml", "build.gradle", "build.gradle.kts"]),
    ("php",    ["composer.json", "composer.lock"]) ]

/-- The fixed, explicit priority order used by `detectInDirectory`. -/
def priorityOrder : List String :=
  ["node", "go", "python", "rust", "java", "ruby", "php", "make"]

/-- Inner loop of `detectInDirectory`: scan one context's marker files in
order; the first marker that exists in `dir` wins. -/
def checkMarkers (fs : List String → Bool) (dir : List String) (ctx : String) :
    List String → Option String
  | [] => none
  | m :: ms => if fs (dir ++ [m]) then some ctx else checkMarkers fs dir ctx ms

/-- Outer loop of `detectInDirectory`, generalized over the order list so the
priority statement can be proved by induction. -/
def detectFrom (fs : List String → Bool) (dir : List String) :
    List String → Option String
  | [] => none
  | ctx :: rest =>
    match defaultMarkers.lookup ctx with
    | none => detectFrom fs dir rest
    | some ms =>
      match checkMarkers fs dir ctx ms with
      | some c => some c
      | none => detectFrom fs dir rest

/-- `detectInDirectory`: check each context of `priorityOrder` in turn. -/
def detectInDirectory (fs : List String → Bool) (dir : List String) : Option String :=
  detectFrom fs dir priorityOrder

/-- Whether context `ctx` has some marker file present in `dir` (the
condition under which the scan of `ctx` succeeds). -/
def hasMarkerB (fs : List String → Bool) (dir : List String) (ctx : String) : Bool :=
  match defaultMarkers.lookup ctx with
  | none => false
  | some ms => ms.any (fun m => fs (dir ++ [m]))

/-- The `for i := 0; i < 4; i++` walk of `Detect`: check the current
directory, stop if the filesystem root was reached (`filepath.Dir` is the
identity exactly at the root), otherwise move to the parent. -/
def detectLoop (fs : List String → Bool) : Nat → List String → Option String
  | 0, _ => none
  | n + 1, dir =>
    match detectInDirectory fs dir with
    | some c => some c
    | none =>
      if dir.dropLast = dir then none
      else detectLoop fs n dir.dropLast

/-- The detector's failure: `"no recognized project context found in %s or
parent directories"`. -/
inductive DetectError where
  | noContextFound
  deriving DecidableEq, Repr

/-- `Detector.Detect(dir)`: search `dir` and up to 3 levels of parents;
return the `"no recognized project context found"` error if nothing
matched.  `dir` is taken to be already absolute (`filepath.Abs` is the
identity here). -/
def Detect (fs : List String → Bool) (dir : List String) : Except DetectError String :=
  match detectLoop fs 4 dir with
  | some c => .ok c
  | none => .error .noContextFound

/-! ## Plugin system (`internal/plugin`) -/

/-- The `Plugin` interface.  `contexts` is the result of `Contexts()`
(a Go map, so its names are distinct), `detect` the plugin's `Detect`
over the abstract filesystem-dependent directory, and `validate` the result
of `Validate()` (`none` = nil error). -/
structure Plugin where
  name : String
  version : String
  contexts : List (String × ContextConfig)
  detect : List String → Option String
  validate : Option String

/-- `PluginMetadata` as recorded by `RegisterPlugin` (the `Path`/`Hash`
fields, used only by the unimplemented native loading path, are omitted). -/
structure PluginMetadata where
  name : String
  version : String
  enabled : Bool
  contextCount : Nat
  contextNames : List String

/-- `PluginManager`: the ordered plugin list and the name-keyed metadata
index (an association list standing for the Go map). -/
structure PluginManager where
  plugins : List Plugin
  metadata : List (String × PluginMetadata)

/-- `NewPluginManager`. -/
def NewPluginManager : PluginManager := { plugins := [], metadata := [] }

/-- The errors of `RegisterPlugin`: `"plugin validation failed: %w"` and
`"plugin with name %q already registered"`. -/
inductive RegisterError where
  | validationFailed (msg : String)
  | duplicateName (name : String)
  deriving DecidableEq, Repr

/-- `RegisterPlugin`: validate, reject duplicate names, then append the
plugin and record its metadata.  The returned manager is the state after the
call (unchanged on failure, since the Go method mutates only after both
checks pass). -/
def RegisterPlugin (pm : PluginManager) (p : Plugin) :
    PluginManager × Option RegisterError :=
  match p.validate with
  | some msg => (pm, some (.validationFailed msg))
  | none =>
    if (pm.metadata.lookup p.name).isSome then
      (pm, some (.duplicateName p.name))
    else
      ({ plugins := pm.plugins ++ [p]
         metadata := pm.metadata ++
           [(p.name, { name := p.name
                       version := p.version
                       enabled := true
                       contextCount := p.contexts.length
                       contextNames := p.contexts.map Prod.fst })] },
       none)

/-- `DetectContext(dir)`: iterate the registered plugins in order and return
the first plugin whose `Detect` succeeds, as `(context, pluginName)`;
`none` models the `("", "", false)` return. -/
def DetectContext (plugins : List Plugin) (dir : List String) :
    Option (String × String) :=
  match plugins with
  | [] => none
  | p :: rest =>
    match p.detect dir with
    | some ctx => some (ctx, p.name)
    | none => DetectContext rest dir

/-- A Go `map[string]config.ContextConfig` under overwriting insertion,
as a lookup function. -/
def GoCtxMap := String → Option ContextConfig

/-- The empty map. -/
def mapEmpty : GoCtxMap := fun _ => none

/-- Go map assignment `m[k] = v` (overwrites). -/
def mapInsert (m : GoCtxMap) (k : String) (v : ContextConfig) : GoCtxMap :=
  fun x => if x = k then some v else m x

/-- Inner loop of `GetContexts` for one plugin: store the context under the
namespaced key `pluginName:contextName` unconditionally, then under the bare
name only if that key is still absent. -/
def addPluginContexts (pname : String) (acc : GoCtxMap) :
    List (String × ContextConfig) → GoCtxMap
  | [] => acc
  | e :: rest =>
    let acc1 := mapInsert acc (pname ++ ":" ++ e.1) e.2
    let acc2 :=
      match acc1 e.1 with
      | some _ => acc1
      | none => mapInsert acc1 e.1 e.2
    addPluginContexts pname acc2 rest

/-- Outer loop of `GetContexts` over the registered plugins in order. -/
def getContextsLoop (acc : GoCtxMap) : List Plugin → GoCtxMap
  | [] => acc
  | p :: rest => getContextsLoop (addPluginContexts p.name acc p.contexts) rest

/-- `GetContexts()`: the aggregate context table of all registered plugins. -/
def GetContexts (plugins : List Plugin) : GoCtxMap :=
  getContextsLoop mapEmpty plugins

/-! ### The example Docker and Kubernetes plugins (`examples.go`) -/

/-- The contexts contributed by `DockerPlugin.Contexts()`. -/
def dockerContexts : List (String × ContextConfig) :=
  [ ("docker",
     { commands :=
        [ ("build",   "docker build -t $(basename $(pwd)) ."),
          ("run",     "docker run -it $(basename $(pwd))"),
          ("push",    "docker push $(basename $(pwd))"),
          ("compose", "docker-compose up"),
          ("stop",    "docker-compose down"),
          ("logs",    "docker-compose logs -f"),
          ("shell",   "docker exec -it $(docker ps -q -f name=$(basename $(pwd))) /bin/bash") ] }),
    ("docker-compose",
     { commands :=
        [ ("up",      "docker-compose up -d"),
          ("down",    "docker-compose down"),
          ("logs",    "docker-compose logs -f"),
          ("build",   "docker-compose build"),
          ("restart", "docker-compose restart") ] }) ]

/-- `DockerPlugin.Detect`: `Dockerfile` means context `docker`;
otherwise `docker-compose.yml` / `docker-compose.yaml` mean
`docker-compose`. -/
def dockerDetect (fs : List String → Bool) (dir : List String) : Option String :=
  if fs (dir ++ ["Dockerfile"]) then some "docker"
  else if fs (dir ++ ["docker-compose.yml"]) || fs (dir ++ ["docker-compose.yaml"]) then
    some "docker-compose"
  else none

/-- `DockerPlugin.Validate`: non-empty name and version, every context has a
non-empty command map and no empty command string. -/
def dockerValidate (name version : String)
    (ctxs : List (String × ContextConfig)) : Option String :=
  if name = "" then some "plugin name cannot be empty"
  else if version = "" then some "plugin version cannot be empty"
  else
    ctxs.findSome? fun e =>
      if e.2.commands.isEmpty then some ("context " ++ e.1 ++ " has no commands")
      else
        e.2.commands.findSome? fun c =>
          if c.2 = "" then some ("context " ++ e.1 ++ ", command " ++ c.1 ++ " is empty")
          else none

/-- `NewDockerPlugin()` over a given filesystem. -/
def dockerPlugin (fs : List String → Bool) : Plugin :=
  { name := "docker"
    version := "1.0.0"
    contexts := dockerContexts
    detect := dockerDetect fs
    validate := dockerValidate "docker" "1.0.0" dockerContexts }

/-- The contexts contributed by `KubernetesPlugin.Contexts()`. -/
def kubernetesContexts : List (String × ContextConfig) :=
  [ ("kubernetes",
     { commands :=
        [ ("apply",        "kubectl apply -f ."),
          ("delete",       "kubectl delete -f ."),
          ("get",          "kubectl get all"),
          ("logs",         "kubectl logs -f"),
          ("describe",     "kubectl describe"),
          ("exec",         "kubectl exec -it"),
          ("port-forward", "kubectl port-forward") ] }),
    ("helm",
     { commands :=
        [ ("install",  "helm install"),
          ("upgrade",  "helm upgrade"),
          ("rollback", "helm rollback"),
          ("list",     "helm list"),
          ("delete",   "helm delete") ] }) ]

/-- `KubernetesPlugin.Detect`: any of the manifest paths means `kubernetes`;
otherwise `Chart.yaml` means `helm`. -/
def kubernetesDetect (fs : List String → Bool) (dir : List String) : Option String :=
  if [["deployment.yaml"], ["deployment.yml"],
      ["k8s", "deployment.yaml"], ["kubernetes", "deployment.yaml"]].any
       (fun m => fs (dir ++ m)) then
    some "kubernetes"
  else if fs (dir ++ ["Chart.yaml"]) then some "helm"
  else none

/-- `KubernetesPlugin.Validate`: non-empty name and version, every context
has a non-empty command map. -/
def kubernetesValidate (name version : String)
    (ctxs : List (String × ContextConfig)) : Option String :=
  if name = "" then some "plugin name cannot be empty"
  else if version = "" then some "plugin version cannot be empty"
  else
    ctxs.findSome? fun e =>
      if e.2.commands.isEmpty then some ("context " ++ e.1 ++ " has no commands")
      else none

/-- `NewKubernetesPlugin()` over a given filesystem. -/
def kubernetesPlugin (fs : List String → Bool) : Plugin :=
  { name := "kubernetes"
    version := "1.0.0"
    contexts := kubernetesContexts
    detect := kubernetesDetect fs
    validate := kubernetesValidate "kubernetes" "1.0.0" kubernetesContexts }

/-! ## The two Command Registry versions

`internal/registry/registry.go` (version 1, no guards) and the revised file
with nil-config guards (version 2).  A registry is its `*config.Config`
pointer: `Option GoConfig`, where `none` is a nil pointer and
`GoConfig.contexts = none` a nil `Contexts` map.  In Go, a lookup on a nil
map misses, while a field access through a nil pointer panics. -/

/-- The lookup errors of both registries: `"unknown context '%s'"`,
`"command '%s' not defined in context '%s'"`, and (version 2 only)
`"registry not properly initialized"`. -/
inductive RegError where
  | unknownContext (ctx : String)
  | commandNotDefined (cmd ctx : String)
  | notInitialized
  deriving DecidableEq, Repr

/-- Result of a registry method: a nil-pointer panic, an error, or a value. -/
inductive RegOut (α : Type) where
  | panicked
  | err (e : RegError)
  | ok (a : α)
  deriving DecidableEq, Repr

/-- Version 1 `GetCommand`: no guards (a nil config panics, a nil map just
misses every lookup). -/
def getCommand1 (config : Option GoConfig) (ctx cmd : String) : RegOut String :=
  match config with
  | none => .panicked
  | some cfg =>
    match (cfg.contexts.getD []).lookup ctx with
    | none => .err (.unknownContext ctx)
    | some cc =>
      match cc.commands.lookup cmd with
      | none => .err (.commandNotDefined cmd ctx)
      | some fullCommand => .ok fullCommand

/-- Version 2 `GetCommand`: returns `notInitialized` when the config or its
`Contexts` map is nil. -/
def getCommand2 (config : Option GoConfig) (ctx cmd : String) : RegOut String :=
  match config with
  | none => .err .notInitialized
  | some cfg =>
    match cfg.contexts with
    | none => .err .notInitialized
    | some m =>
      match m.lookup ctx with
      | none => .err (.unknownContext ctx)
      | some cc =>
        match cc.commands.lookup cmd with
        | none => .err (.commandNotDefined cmd ctx)
        | some fullCommand => .ok fullCommand

/-- Version 1 `ListCommands`: the command names of the context. -/
def listCommands1 (config : Option GoConfig) (ctx : String) : RegOut (List String) :=
  match config with
  | none => .panicked
  | some cfg =>
    match (cfg.contexts.getD []).lookup ctx with
    | none => .err (.unknownContext ctx)
    | some cc => .ok (cc.commands.map Prod.fst)

/-- Version 2 `ListCommands`. -/
def listCommands2 (config : Option GoConfig) (ctx : String) : RegOut (List String) :=
  match config with
  | none => .err .notInitialized
  | some cfg =>
    match cfg.contexts with
    | none => .err .notInitialized
    | some m =>
      match m.lookup ctx with
      | none => .err (.unknownContext ctx)
      | some cc => .ok (cc.commands.map Prod.fst)

/-- Version 1 `ListContexts`: the context names (nil config panics; a nil
map yields the empty slice). -/
def listContexts1 (config : Option GoConfig) : RegOut (List String) :=
  match config with
  | none => .panicked
  | some cfg => .ok ((cfg.contexts.getD []).map Prod.fst)

/-- Version 2 `ListContexts`: returns the empty slice when uninitialized. -/
def listContexts2 (config : Option GoConfig) : RegOut (List String) :=
  match config with
  | none => .ok []
  | some cfg =>
    match cfg.contexts with
    | none => .ok []
    | some m => .ok (m.map Prod.fst)

/-! ## Dispatcher (`handleDynamicCommand`, cli package) -/

/-- The constants of the cli package: `DefaultCommandTimeout` (10 minutes,
in nanoseconds as Go durations are), `MaxArgumentLength`,
`MaxArgumentCount`. -/
def DefaultCommandTimeout : Nat := 600000000000

/-- `MaxArgumentLength`: limit on a single argument's size in bytes. -/
def MaxArgumentLength : Nat := 8192

/-- `MaxArgumentCount`: limit on the number of caller arguments. -/
def MaxArgumentCount : Nat := 100

/-- The tb flag state mutated by the manual flag loop (the package-level
variables `cfgFile`, `forceCtx`, `dryRun`, `verbose`, `commandTimeout`). -/
structure TbFlags where
  cfgFile : String
  forceCtx : String
  dryRun : Bool
  verbose : Bool
  timeout : Nat
  deriving DecidableEq, Repr

/-- The flag state at entry to `handleDynamicCommand` (the defaults set in
`init()`; cobra's own flag parsing is disabled). -/
def defaultFlags : TbFlags :=
  { cfgFile := "", forceCtx := "", dryRun := false, verbose := false,
    timeout := DefaultCommandTimeout }

/-- Result of the manual flag-parsing loop of `handleDynamicCommand`
(lines 266-351): an early `--version`/help return, an invalid `--timeout`
value, `cmd.Help()` because no command name was found, or a command name
with the verbatim trailing arguments. -/
inductive ParseOutcome where
  | versionShown
  | helpShown
  | invalidTimeout (value : String)
  | noCommand (fl : TbFlags)
  | parsed (fl : TbFlags) (commandName : String) (commandArgs : List String)
  deriving DecidableEq, Repr

/-- The manual flag loop: consume recognized tb flags until a command name
is found; every token after the command name is collected verbatim.  A token
that starts with `-` but is not a recognized tb flag is treated as the
command name (`// Unknown flag - could be for the command`), and so is a
value-taking tb flag that appears as the last token.  The empty command name
check of line 349 is folded in (`arg = ""` can only become the command name
and then triggers `cmd.Help()`).  `pd` is `time.ParseDuration` in
nanoseconds. -/
def parseLoop (pd : String → Option Nat) (fl : TbFlags) :
    List String → ParseOutcome
  | [] => .noCommand fl
  | arg :: rest =>
    if arg = "--version" then .versionShown
    else if arg = "--help" ∨ arg = "-h" then .helpShown
    else if arg = "--config" ∧ rest ≠ [] then
      parseLoop pd { fl with cfgFile := rest.headD "" } rest.tail
    else if arg = "--context" ∧ rest ≠ [] then
      parseLoop pd { fl with forceCtx := rest.headD "" } rest.tail
    else if arg = "--dry-run" then
      parseLoop pd { fl with dryRun := true } rest
    else if arg = "--verbose" then
      parseLoop pd { fl with verbose := true } rest
    else if arg = "--timeout" ∧ rest ≠ [] then
      match pd (rest.headD "") with
      | none => .invalidTimeout (rest.headD "")
      | some n => parseLoop pd { fl with timeout := n } rest.tail
    else if arg = "" then .noCommand fl
    else .parsed fl arg rest
termination_by args => args.length
decreasing_by
  all_goals simp [List.length_tail]
  all_goals omega

/-- The errors of `validateArguments`: `"too many arguments"` with the count
and `"argument %d exceeds maximum length"` with the index. -/
inductive ArgError where
  | tooMany (got : Nat)
  | tooLong (idx : Nat)
  deriving DecidableEq, Repr

/-- The per-argument length scan of `validateArguments` (Go `len(arg)`
counts bytes). -/
def argsTooLong (i : Nat) : List String → Option ArgError
  | [] => none
  | a :: rest =>
    if a.utf8ByteSize > MaxArgumentLength then some (.tooLong i)
    else argsTooLong (i + 1) rest

/-- `validateArguments`: count bound first, then per-argument length bound
(the dangerous-pattern scan only prints a warning and never affects the
result). -/
def validateArguments (args : List String) : Option ArgError :=
  if args.length > MaxArgumentCount then some (.tooMany args.length)
  else argsTooLong 0 args

/-- The plugin-context merge of lines 374-379: add a plugin context only if
the config does not already define that name (config takes precedence). -/
def mergeContexts (cfgCtxs : List (String × ContextConfig))
    (pluginCtxs : List (String × ContextConfig)) : List (String × ContextConfig) :=
  pluginCtxs.foldl
    (fun acc e => if (acc.lookup e.1).isSome then acc else acc ++ [e]) cfgCtxs

/-- The dispatcher's collaborators for one invocation: `time.ParseDuration`,
`config.Load`, the Plugin Manager's aggregate contexts and `DetectContext`
result for `"."`, the built-in detector's result for `"."`, and the executor
environment. -/
structure DispatchEnv where
  pd : String → Option Nat
  loadConfig : String → Except String GoConfig
  pluginContexts : List (String × ContextConfig)
  pluginDetect : Option (String × String)
  builtinDetect : Option String
  execEnv : ExecEnv

/-- The fatal failures of one dispatch, in the order the pipeline can report
them: `"invalid timeout duration"`, `"invalid arguments: %w"`,
`"failed to load config: %w"`, `"failed to detect context: %w"`,
`"command '%s' not found in context '%s': %w"`. -/
inductive DispatchError where
  | invalidTimeout (value : String)
  | invalidArguments (e : ArgError)
  | configLoadFailed (msg : String)
  | contextDetectFailed
  | commandNotFound (cmd ctx : String)
  deriving DecidableEq, Repr

deriving instance DecidableEq for Except

/-- Observable outcome of `handleDynamicCommand`. -/
inductive DispatchResult where
  | versionShown
  | helpShown
  | helpFor (cmd : String)
  | fatal (e : DispatchError)
  | dryRunResolved (ctx baseCommand : String) (args : List String)
  | executed (r : Except ExecError Unit)
  deriving DecidableEq, Repr

/-- `handleDynamicCommand`: parse, per-command help scan, validate
arguments, load config, merge plugin contexts, resolve the context (forced,
else plugin detection, else built-in detection), look the command up in the
registry over the merged table, then dry-run or execute. -/
def dispatch (env : DispatchEnv) (args : List String) : DispatchResult :=
  match parseLoop env.pd defaultFlags args with
  | .versionShown => .versionShown
  | .helpShown => .helpShown
  | .invalidTimeout v => .fatal (.invalidTimeout v)
  | .noCommand _ => .helpShown
  | .parsed fl commandName commandArgs =>
    if commandArgs.any (fun a => a = "--help" ∨ a = "-h") then
      .helpFor commandName
    else
      match validateArguments commandArgs with
      | some e => .fatal (.invalidArguments e)
      | none =>
        match env.loadConfig fl.cfgFile with
        | .error msg => .fatal (.configLoadFailed msg)
        | .ok cfg =>
          let merged := mergeContexts (cfg.contexts.getD []) env.pluginContexts
          let detected : Option String :=
            if fl.forceCtx ≠ "" then some fl.forceCtx
            else
              match env.pluginDetect with
              | some pc => some pc.1
              | none => env.builtinDetect
          match detected with
          | none => .fatal .contextDetectFailed
          | some ctx =>
            match getCommand1 (some { contexts := some merged }) ctx commandName with
            | .ok baseCommand =>
              if fl.dryRun then .dryRunResolved ctx baseCommand commandArgs
              else .executed (executeCommandSecure env.execEnv fl.timeout
                                baseCommand commandArgs)
            | _ => .fatal (.commandNotFound commandName ctx)

/-! ## Auxiliary predicates and concrete instances used by the statements -/

/-- The parse outcome is `parsed` with exactly this command name and these
verbatim trailing arguments (whatever the final flag state). -/
def ParseOutcome.isParsedAs : ParseOutcome → String → List String → Prop
  | .parsed _ n a, t, r => n = t ∧ a = r
  | _, _, _ => False

/-- The token groups the flag loop consumes as recognized tb flags: the
boolean flags, the value-taking flags together with their value, and
`--timeout` with a value that `time.ParseDuration` accepts. -/
inductive TbFlagTokens (pd : String → Option Nat) : List String → Prop
  | dryRun : TbFlagTokens pd ["--dry-run"]
  | verbose : TbFlagTokens pd ["--verbose"]
  | config (v : String) : TbFlagTokens pd ["--config", v]
  | forceContext (v : String) : TbFlagTokens pd ["--context", v]
  | timeout (v : String) (n : Nat) (h : pd v = some n) :
      TbFlagTokens pd ["--timeout", v]

/-- The token heads that the flag loop never turns into a command name. -/
def tbFlagHeads : List String :=
  ["--version", "--help", "-h", "--config", "--context",
   "--dry-run", "--verbose", "--timeout"]

/-- A `time.ParseDuration` that accepts nothing (its behaviour is irrelevant
to the instances below, which pass no `--timeout`). -/
def noDuration : String → Option Nat := fun _ => none

/-- A search path with only the `go` tool on it. -/
def goOnlyPath : String → Option String :=
  fun s => if s = "go" then some "/usr/bin/go" else none

/-- An executor environment whose child runs always succeed. -/
def execEnvOk : ExecEnv := { lookPath := goOnlyPath, run := fun _ => .success }

/-- An executor environment whose child was killed by the expired deadline:
`cmd.Run()` fails and `ctx.Err() == context.DeadlineExceeded`. -/
def execEnvKilled : ExecEnv :=
  { lookPath := fun _ => some "/bin/sleep"
    run := fun _ => .failure "signal: killed" true }

/-- A filesystem whose only file is `/home/proj/go.mod`. -/
def fsGoModOnly : List String → Bool := fun p => p == ["home", "proj", "go.mod"]

/-- A filesystem with `/proj/go.mod` and `/proj/Cargo.toml` (markers of the
two identities `go` and `rust` in the same directory). -/
def fsGoAndRust : List String → Bool :=
  fun p => p == ["proj", "go.mod"] || p == ["proj", "Cargo.toml"]

/-- A filesystem whose only file is `/w/Dockerfile`. -/
def fsDockerfileOnly : List String → Bool := fun p => p == ["w", "Dockerfile"]

/-- Two distinct context configurations used as observables. -/
def ccOne : ContextConfig := { commands := [("x", "1")] }

/-- Second observable context configuration. -/
def ccTwo : ContextConfig := { commands := [("x", "2")] }

/-- Third observable context configuration. -/
def ccThree : ContextConfig := { commands := [("x", "3")] }

/-- A plugin named `a` contributing a context whose name contains a colon. -/
def pluginColonCtx : Plugin :=
  { name := "a", version := "1", contexts := [("b:c", ccOne)],
    detect := fun _ => none, validate := none }

/-- A plugin whose name contains a colon, contributing context `c`; its
namespaced key `a:b:c` collides with `pluginColonCtx`'s. -/
def pluginColonName : Plugin :=
  { name := "a:b", version := "1", contexts := [("c", ccTwo)],
    detect := fun _ => none, validate := none }

/-- First demo plugin for the aggregate-table statements: contributes `c1`
and `shared`. -/
def pluginP1 : Plugin :=
  { name := "p1", version := "1", contexts := [("c1", ccOne), ("shared", ccTwo)],
    detect := fun _ => none, validate := none }

/-- Second demo plugin: registered later, also contributes `shared`. -/
def pluginP2 : Plugin :=
  { name := "p2", version := "1", contexts := [("shared", ccThree)],
    detect := fun _ => none, validate := none }

/-- A valid plugin named `dup`. -/
def pluginDupA : Plugin :=
  { name := "dup", version := "1", contexts := [("c", ccOne)],
    detect := fun _ => none, validate := none }

/-- A different valid plugin with the same name `dup`. -/
def pluginDupB : Plugin :=
  { name := "dup", version := "2", contexts := [("d", ccTwo)],
    detect := fun _ => none, validate := none }

/-- A dispatch environment in which no context can be resolved: no forced
context, no plugin detection, no built-in detection; the config loads fine
and is empty. -/
def envNoContext : DispatchEnv :=
  { pd := noDuration
    loadConfig := fun _ => .ok { contexts := some [] }
    pluginContexts := []
    pluginDetect := none
    builtinDetect := none
    execEnv := execEnvOk }

/-- An invocation whose caller arguments exceed `MaxArgumentCount`. -/
def argsTooManyInvocation : List String := "build" :: List.replicate 101 "x"

/-- A dispatch environment that resolves context `go` via the built-in
detector and defines `build` there. -/
def envGoBuild : DispatchEnv :=
  { pd := noDuration
    loadConfig := fun _ =>
      .ok { contexts := some [("go", { commands := [("build", "go build ./...")] })] }
    pluginContexts := []
    pluginDetect := none
    builtinDetect := some "go"
    execEnv := execEnvOk }

/-! ## Theorems -/

/-- Claim C1: for every base invocation string and caller argument list, the
Secure Executor splits the base string on whitespace into a program token
and fixed-argument tokens, resolves the program on the search path, and
starts the child directly with argv equal to the fixed arguments followed
by the caller arguments unchanged (so caller arguments, shell
metacharacters included, are literal argv entries and no shell is ever
interposed: the spawn has `viaShell = false`, inherited streams and
inherited environment, and the trailing argv entries are exactly the caller
arguments). -/
theorem executor_builds_literal_argv (env : ExecEnv) (timeout : Nat)
    (base : String) (userArgs : List String)
    (program path : String) (fixedArgs : List String)
    (hsplit : goFields base = program :: fixedArgs)
    (hpath : env.lookPath program = some path) :
    buildSpawn env.lookPath base userArgs =
      .ok { program := path, argv := fixedArgs ++ userArgs, viaShell := false,
            inheritStdio := true, inheritEnv := true }
    ∧ executeCommandSecure env timeout base userArgs =
        classifyRun timeout
          (env.run { program := path, argv := fixedArgs ++ userArgs,
                     viaShell := false, inheritStdio := true, inheritEnv := true })
    ∧ (fixedArgs ++ userArgs).drop fixedArgs.length = userArgs := by
  refine ⟨?_, ?_, List.drop_left fixedArgs userArgs⟩ <;>
    simp [buildSpawn, executeCommandSecure, hsplit, hpath]

/-- Witness for C1: `go build ./...` with caller arguments containing shell
metacharacters ends up with exactly those literal argv entries after the
fixed arguments, and no shell. -/
theorem executor_builds_literal_argv_witness :
    buildSpawn goOnlyPath "go build ./..." ["-v", "a;b", "$(x)"] =
      .ok { program := "/usr/bin/go",
            argv := ["build", "./...", "-v", "a;b", "$(x)"],
            viaShell := false, inheritStdio := true, inheritEnv := true } := by
  have h := (executor_builds_literal_argv execEnvOk 0 "go build ./..."
    ["-v", "a;b", "$(x)"] "go" "/usr/bin/go" ["build", "./..."] rfl rfl).1
  simpa [execEnvOk] using h

/-- Claim C9: when the child fails and the deadline has expired a
timeout-classified error is reported, when the child fails without the
deadline having expired the distinct process-failure error wrapping the
underlying information is reported, and the two classes are distinct
constructors. -/
theorem executor_timeout_classification (env : ExecEnv) (timeout : Nat)
    (base : String) (userArgs : List String)
    (program path info : String) (fixedArgs : List String) (ddl : Bool)
    (hsplit : goFields base = program :: fixedArgs)
    (hpath : env.lookPath program = some path)
    (hrun : env.run { program := path, argv := fixedArgs ++ userArgs,
                      viaShell := false, inheritStdio := true,
                      inheritEnv := true } = .failure info ddl) :
    executeCommandSecure env timeout base userArgs =
      .error (if ddl then ExecError.timedOut timeout
              else ExecError.processFailed info)
    ∧ (∀ t e, ExecError.timedOut t ≠ ExecError.processFailed e) := by
  constructor
  · simp [executeCommandSecure, buildSpawn, hsplit, hpath, hrun, classifyRun]
    cases ddl <;> simp
  · intro t e h
    exact ExecError.noConfusion h

/-- Witness for C9: a deadline shorter than the child's runtime yields the
timeout-classified error, not the generic process failure. -/
theorem executor_timeout_classification_witness :
    executeCommandSecure execEnvKilled 5 "sleep 100" [] =
      .error (ExecError.timedOut 5) := by
  have h := (executor_timeout_classification execEnvKilled 5 "sleep 100" []
    "sleep" "/bin/sleep" "signal: killed" ["100"] true rfl rfl rfl).1
  simpa using h

/-- Claim C10: on every registry built from a non-nil config with a non-nil
contexts map, the plain registry and the guarded registry agree on
`GetCommand`, `ListCommands` and `ListContexts` for all inputs (they can
differ only on the uninitialized registries the guards handle). -/
theorem registry_versions_equivalent (m : List (String × ContextConfig))
    (ctx cmd : String) :
    getCommand1 (some { contexts := some m }) ctx cmd =
      getCommand2 (some { contexts := some m }) ctx cmd
    ∧ listCommands1 (some { contexts := some m }) ctx =
        listCommands2 (some { contexts := some m }) ctx
    ∧ listContexts1 (some { contexts := some m }) =
        listContexts2 (some { contexts := some m }) := by
  refine ⟨rfl, rfl, rfl⟩

/-- Claim C8: `RegisterPlugin` fails when self-validation fails or when the name
is already registered, leaving the manager unchanged; in particular,
registering two plugins with the same name fails the second registration
and leaves the first registration (plugin list and metadata entry)
intact. -/
theorem register_plugin_rejections (pm : PluginManager) (p q : Plugin) :
    (∀ msg, p.validate = some msg →
      RegisterPlugin pm p = (pm, some (.validationFailed msg)))
    ∧ (p.validate = none → (pm.metadata.lookup p.name).isSome →
        RegisterPlugin pm p = (pm, some (.duplicateName p.name)))
    ∧ (p.validate = none → q.validate = none → q.name = p.name →
        pm.metadata.lookup p.name = none →
        RegisterPlugin (RegisterPlugin pm p).1 q =
          ((RegisterPlugin pm p).1, some (.duplicateName p.name))
        ∧ p ∈ (RegisterPlugin pm p).1.plugins
        ∧ ((RegisterPlugin pm p).1.metadata.lookup p.name).isSome) := by
  refine ⟨?_, ?_, ?_⟩
  · intro msg hv
    simp [RegisterPlugin, hv]
  · intro hv hdup
    simp [RegisterPlugin, hv, hdup]
  · intro hvp hvq hname hfresh
    have hreg : RegisterPlugin pm p =
        ({ plugins := pm.plugins ++ [p]
           metadata := pm.metadata ++
             [(p.name, { name := p.name, version := p.version, enabled := true,
                         contextCount := p.contexts.length,
                         contextNames := p.contexts.map Prod.fst })] }, none) := by
      simp [RegisterPlugin, hvp, hfresh]
    rw [hreg]
    refine ⟨?_, by simp, ?_⟩
    · simp [RegisterPlugin, hvq, hname, List.lookup_append, hfresh,
            List.lookup_cons]
    · simp [List.lookup_append, hfresh, List.lookup_cons]

/-- Witness for C8: registering `pluginDupB` after `pluginDupA` (same name
`dup`) fails with the duplicate-name error and leaves `pluginDupA`
registered. -/
theorem register_plugin_rejections_witness :
    RegisterPlugin (RegisterPlugin NewPluginManager pluginDupA).1 pluginDupB =
      ((RegisterPlugin NewPluginManager pluginDupA).1,
        some (.duplicateName "dup"))
    ∧ pluginDupA ∈ (RegisterPlugin NewPluginManager pluginDupA).1.plugins := by
  have h := (register_plugin_rejections NewPluginManager pluginDupA pluginDupB).2.2
    rfl rfl rfl rfl
  exact ⟨h.1, h.2.1⟩

/-- Claim C7: `DetectContext` iterates the registered plugins in registration
order and returns the context and plugin name of the first plugin whose
`Detect` succeeds, whatever the plugins registered after it; in the
concrete scenario, with `docker` and `kubernetes` registered in that order
and a directory containing only a `Dockerfile`, resolution goes through the
`docker` plugin and not `kubernetes`. -/
theorem detect_context_first_match (pre post : List Plugin) (p : Plugin)
    (dir : List String) (ctx : String)
    (hpre : ∀ q ∈ pre, q.detect dir = none)
    (hp : p.detect dir = some ctx) :
    DetectContext (pre ++ p :: post) dir = some (ctx, p.name)
    ∧ DetectContext [dockerPlugin fsDockerfileOnly,
                     kubernetesPlugin fsDockerfileOnly] ["w"] =
        some ("docker", "docker") := by
  constructor
  · induction pre with
    | nil => simp [DetectContext, hp]
    | cons q rest ih =>
      have hq : q.detect dir = none := hpre q (by simp)
      have hrest : ∀ r ∈ rest, r.detect dir = none := fun r hr =>
        hpre r (by simp [hr])
      simpa [DetectContext, hq] using ih hrest
  · rfl

/-- Witness for C7: with the same filesystem but `kubernetes` registered
first, the first match is still the `docker` plugin because `kubernetes`'s
`Detect` finds nothing. -/
theorem detect_context_first_match_witness :
    DetectContext [kubernetesPlugin fsDockerfileOnly,
                   dockerPlugin fsDockerfileOnly] ["w"] =
      some ("docker", "docker") :=
  (detect_context_first_match [kubernetesPlugin fsDockerfileOnly] []
    (dockerPlugin fsDockerfileOnly) ["w"] "docker"
    (by intro q hq
        simp only [List.mem_singleton] at hq
        subst hq
        rfl)
    rfl).1

/-- The inner marker scan succeeds (with the scanned context) exactly when
some marker of the list is present. -/
theorem checkMarkers_eq (fs : List String → Bool) (dir : List String)
    (ctx : String) (ms : List String) :
    checkMarkers fs dir ctx ms =
      if ms.any (fun m => fs (dir ++ [m])) then some ctx else none := by
  induction ms with
  | nil => rfl
  | cons m rest ih =>
    by_cases h : fs (dir ++ [m]) = true
    · simp [checkMarkers, h]
    · simp only [Bool.not_eq_true] at h
      simp [checkMarkers, h, ih]

/-- A context whose marker is present is found by the scan at the head of
the order list. -/
theorem detectFrom_cons_found (fs : List String → Bool) (dir : List String)
    (c : String) (rest : List String) (h : hasMarkerB fs dir c = true) :
    detectFrom fs dir (c :: rest) = some c := by
  unfold hasMarkerB at h
  cases hl : defaultMarkers.lookup c with
  | none => rw [hl] at h; exact absurd h (by simp)
  | some ms =>
    have h' : ms.any (fun m => fs (dir ++ [m])) = true := by rw [hl] at h; exact h
    simp [detectFrom, hl, checkMarkers_eq, h']

/-- A context with no marker present is skipped by the scan. -/
theorem detectFrom_cons_skip (fs : List String → Bool) (dir : List String)
    (c : String) (rest : List String) (h : hasMarkerB fs dir c = false) :
    detectFrom fs dir (c :: rest) = detectFrom fs dir rest := by
  unfold hasMarkerB at h
  cases hl : defaultMarkers.lookup c with
  | none => simp [detectFrom, hl]
  | some ms =>
    have h' : ms.any (fun m => fs (dir ++ [m])) = false := by rw [hl] at h; exact h
    simp [detectFrom, hl, checkMarkers_eq, h']

/-- The scan skips every marker-free context of a prefix and stops at the
first context with a present marker. -/
theorem detectFrom_skip_front (fs : List String → Bool) (dir : List String)
    (c : String) (post : List String) (pre : List String)
    (hpre : ∀ c' ∈ pre, hasMarkerB fs dir c' = false)
    (hc : hasMarkerB fs dir c = true) :
    detectFrom fs dir (pre ++ c :: post) = some c := by
  induction pre with
  | nil => exact detectFrom_cons_found fs dir c post hc
  | cons a rest ih =>
    rw [List.cons_append,
        detectFrom_cons_skip fs dir a (rest ++ c :: post) (hpre a (by simp))]
    exact ih (fun c' hc' => hpre c' (by simp [hc']))

/-- The scan finds nothing when no context of the order list has a marker
present. -/
theorem detectFrom_all_skip (fs : List String → Bool) (dir : List String)
    (order : List String) (h : ∀ c ∈ order, hasMarkerB fs dir c = false) :
    detectFrom fs dir order = none := by
  induction order with
  | nil => rfl
  | cons a rest ih =>
    rw [detectFrom_cons_skip fs dir a rest (h a (by simp))]
    exact ih (fun c hc => h c (by simp [hc]))

/-- If the sole context with a present marker is `c`, the scan returns `c`
from any order list containing it. -/
theorem detectFrom_unique (fs : List String → Bool) (dir : List String)
    (c : String) (order : List String) (hmem : c ∈ order)
    (hc : hasMarkerB fs dir c = true)
    (hothers : ∀ c', c' ≠ c → hasMarkerB fs dir c' = false) :
    detectFrom fs dir order = some c := by
  induction order with
  | nil => cases hmem
  | cons a rest ih =>
    by_cases ha : a = c
    · subst ha; exact detectFrom_cons_found fs dir a rest hc
    · rw [detectFrom_cons_skip fs dir a rest (hothers a ha)]
      exact ih (by cases hmem with
        | head => exact absurd rfl ha
        | tail _ h => exact h)

/-- A directory in which no marker filename exists at all is scanned to
`none`. -/
theorem detectInDirectory_eq_none (fs : List String → Bool) (dir : List String)
    (h : ∀ m : String, fs (dir ++ [m]) = false) :
    detectInDirectory fs dir = none := by
  refine detectFrom_all_skip fs dir priorityOrder (fun c _ => ?_)
  unfold hasMarkerB
  cases hl : defaultMarkers.lookup c with
  | none => rfl
  | some ms => simp [h]

/-- Claim C5: `detectInDirectory` is deterministic in the fixed explicit priority
list.  First conjunct: if markers of several identities are present, the
identity earliest in the priority list always wins.  Second conjunct: if
`c` is the only identity with a marker present (in particular if the
directory holds exactly one recognized marker file), the result is `c`'s
context name.  No map or filesystem iteration order is involved: the result
is a function of which marker files exist. -/
theorem detect_in_directory_priority (fs : List String → Bool)
    (dir : List String) :
    (∀ pre c post, priorityOrder = pre ++ c :: post →
      hasMarkerB fs dir c = true →
      (∀ c' ∈ pre, hasMarkerB fs dir c' = false) →
      detectInDirectory fs dir = some c)
    ∧ (∀ c, c ∈ priorityOrder →
        hasMarkerB fs dir c = true →
        (∀ c', c' ≠ c → hasMarkerB fs dir c' = false) →
        detectInDirectory fs dir = some c) := by
  constructor
  · intro pre c post horder hc hpre
    unfold detectInDirectory
    rw [horder]
    exact detectFrom_skip_front fs dir c post pre hpre hc
  · intro c hmem hc hothers
    exact detectFrom_unique fs dir c priorityOrder hmem hc hothers

/-- Witness for C5: with `go.mod` and `Cargo.toml` in the same directory,
the `go` identity (earlier in the priority list than `rust`) wins. -/
theorem detect_in_directory_priority_witness :
    detectInDirectory fsGoAndRust ["proj"] = some "go" :=
  (detect_in_directory_priority fsGoAndRust ["proj"]).1
    ["node"] "go" ["python", "rust", "java", "ruby", "php", "make"]
    rfl (by decide) (by decide)

/-- With markers only at `d`, the walk started `s` levels below `d` with at
most `s.length` steps of fuel never reaches `d` and finds nothing. -/
theorem detectLoop_far_none (fs : List String → Bool) (d : List String)
    (hnone : ∀ d', d' ≠ d → detectInDirectory fs d' = none) :
    ∀ (n : Nat) (s : List String), s ≠ [] → n ≤ s.length →
      detectLoop fs n (d ++ s) = none := by
  intro n
  induction n with
  | zero => intro s _ _; rfl
  | succ k ih =>
    intro s hs hn
    obtain ⟨s', a, h⟩ := (List.eq_nil_or_concat s).resolve_left hs
    rw [List.concat_eq_append] at h
    subst h
    have hne : d ++ (s' ++ [a]) ≠ d := by
      intro he
      have hlen := congrArg List.length he
      simp [List.length_append] at hlen
    simp only [detectLoop, hnone _ hne]
    by_cases hroot : (d ++ (s' ++ [a])).dropLast = d ++ (s' ++ [a])
    · simp [hroot]
    · rw [if_neg hroot]
      have hdrop : (d ++ (s' ++ [a])).dropLast = d ++ s' := by
        rw [← List.append_assoc]
        exact List.dropLast_concat
      rw [hdrop]
      by_cases hs' : s' = []
      · subst hs'
        have hk : k = 0 := by simpa using hn
        subst hk
        rfl
      · exact ih s' hs' (by simp [List.length_append] at hn ⊢; omega)

/-- With markers only at `d`, the walk started `s` levels below `d` with
more than `s.length` steps of fuel reaches `d` and succeeds. -/
theorem detectLoop_reaches (fs : List String → Bool) (d : List String)
    (c : String) (hfound : detectInDirectory fs d = some c)
    (hnone : ∀ d', d' ≠ d → detectInDirectory fs d' = none) :
    ∀ (n : Nat) (s : List String), s.length < n →
      detectLoop fs n (d ++ s) = some c := by
  intro n
  induction n with
  | zero => intro s h; exact absurd h (Nat.not_lt_zero _)
  | succ k ih =>
    intro s hlen
    by_cases hs : s = []
    · subst hs
      simp [detectLoop, hfound]
    · obtain ⟨s', a, h⟩ := (List.eq_nil_or_concat s).resolve_left hs
      rw [List.concat_eq_append] at h
      subst h
      have hne : d ++ (s' ++ [a]) ≠ d := by
        intro he
        have hl2 := congrArg List.length he
        simp [List.length_append] at hl2
      have hdrop : (d ++ (s' ++ [a])).dropLast = d ++ s' := by
        rw [← List.append_assoc]
        exact List.dropLast_concat
      have hroot : ¬((d ++ (s' ++ [a])).dropLast = d ++ (s' ++ [a])) := by
        rw [hdrop]
        intro he
        have hl3 := congrArg List.length he
        simp [List.length_append] at hl3
      simp only [detectLoop, hnone _ hne]
      rw [if_neg hroot, hdrop]
      exact ih s' (by simp [List.length_append] at hlen ⊢; omega)

/-- Claim C4: the walk visits the start directory and at most 3 ancestors.  With
a marker present only in directory `d`, detection started `k` levels below
`d` succeeds for every `k ≤ 3` and fails for every `k ≥ 5`, and when no
identity matches within the bound `Detect` returns the
no-context-found error rather than a context name. -/
theorem detect_walk_bound (fs : List String → Bool) (d s : List String)
    (c : String) (hfound : detectInDirectory fs d = some c)
    (hnone : ∀ d', d' ≠ d → detectInDirectory fs d' = none) :
    (s.length ≤ 3 → Detect fs (d ++ s) = .ok c)
    ∧ (5 ≤ s.length → Detect fs (d ++ s) = .error .noContextFound) := by
  constructor
  · intro h
    unfold Detect
    rw [detectLoop_reaches fs d c hfound hnone 4 s (by omega)]
  · intro h
    unfold Detect
    rw [detectLoop_far_none fs d hnone 4 s
      (by intro he; rw [he] at h; simp at h) (by omega)]

/-- Witness for C4: with the only marker at `/home/proj`, detection from
one level below succeeds with the `go` context. -/
theorem detect_walk_bound_witness :
    Detect fsGoModOnly (["home", "proj"] ++ ["a"]) = .ok "go" := by
  refine (detect_walk_bound fsGoModOnly ["home", "proj"] ["a"] "go"
    (by decide) ?_).1 (by decide)
  intro d' hne
  refine detectInDirectory_eq_none fsGoModOnly d' ?_
  intro m
  by_cases he : d' ++ [m] = ["home", "proj", "go.mod"]
  · exfalso
    have h2 : d' ++ [m] = ["home", "proj"] ++ ["go.mod"] := by simpa using he
    exact hne (List.append_inj' h2 rfl).1
  · simp [fsGoModOnly, he]

/-- A token that is not one of the recognized tb flag heads (and not the
empty string) becomes the command name, with everything after it forwarded
verbatim — even when it looks like a flag. -/
theorem parseLoop_command_token (pd : String → Option Nat) (fl : TbFlags)
    (t : String) (rest : List String)
    (ht : t ∉ tbFlagHeads) (ht0 : t ≠ "") :
    parseLoop pd fl (t :: rest) = .parsed fl t rest := by
  simp only [tbFlagHeads, List.mem_cons, List.mem_singleton, not_or] at ht
  obtain ⟨h1, h2, h3, h4, h5, h6, h7, h8, -⟩ := ht
  simp [parseLoop, h1, h2, h3, h4, h5, h6, h7, h8, ht0]

/-- Consuming one recognized tb flag group only updates the flag state and
continues with the remaining tokens. -/
theorem parseLoop_consume_group (pd : String → Option Nat) (fl : TbFlags)
    (g rest' : List String) (hg : TbFlagTokens pd g) :
    ∃ fl', parseLoop pd fl (g ++ rest') = parseLoop pd fl' rest' := by
  cases hg with
  | dryRun => exact ⟨{ fl with dryRun := true }, by simp [parseLoop]⟩
  | verbose => exact ⟨{ fl with verbose := true }, by simp [parseLoop]⟩
  | config v => exact ⟨{ fl with cfgFile := v }, by simp [parseLoop]⟩
  | forceContext v => exact ⟨{ fl with forceCtx := v }, by simp [parseLoop]⟩
  | timeout v n h => exact ⟨{ fl with timeout := n }, by simp [parseLoop, h]⟩

/-- Claim C2 (amended): the parse step consumes leading recognized tb flag groups,
and the first token that is not a recognized tb flag — a non-flag token or
an unknown flag-like token — becomes the command name; every token after it
is forwarded verbatim (including further flag-like tokens).  (The claim as
frozen says the first non-flag token becomes the command name; the
counterexample below shows an unknown flag-like token becomes the command
name instead.) -/
theorem parser_first_unrecognized_token (pd : String → Option Nat)
    (groups : List (List String)) (fl : TbFlags) (t : String)
    (rest : List String)
    (hg : ∀ g ∈ groups, TbFlagTokens pd g)
    (ht : t ∉ tbFlagHeads) (ht0 : t ≠ "") :
    (parseLoop pd fl (groups.flatten ++ t :: rest)).isParsedAs t rest := by
  induction groups generalizing fl with
  | nil =>
    rw [List.flatten_nil, List.nil_append,
        parseLoop_command_token pd fl t rest ht ht0]
    exact ⟨rfl, rfl⟩
  | cons g gs ih =>
    obtain ⟨fl', hfl⟩ :=
      parseLoop_consume_group pd fl g (gs.flatten ++ t :: rest) (hg g (by simp))
    rw [List.flatten_cons, List.append_assoc, hfl]
    exact ih fl' (fun g' hg' => hg g' (by simp [hg']))

/-- Counterexample to C2 as frozen: on `["-x", "build"]` the parse step
takes the unknown flag-like token `-x` as the command name and forwards
`build`, not the first non-flag token `build` with nothing forwarded. -/
theorem parser_first_token_counterexample :
    parseLoop noDuration defaultFlags ["-x", "build"] =
      .parsed defaultFlags "-x" ["build"]
    ∧ ParseOutcome.parsed defaultFlags "-x" ["build"] ≠
        ParseOutcome.parsed defaultFlags "build" [] := by
  constructor
  · simp [parseLoop]
  · simp

/-- Witness for the amended C2: after the recognized groups `--dry-run` and
`--context go`, the flag-like token `-race` becomes the command name and
`./...` is forwarded verbatim. -/
theorem parser_first_unrecognized_token_witness :
    (parseLoop noDuration defaultFlags
      ["--dry-run", "--context", "go", "-race", "./..."]).isParsedAs
        "-race" ["./..."] := by
  have h := parser_first_unrecognized_token noDuration
    [["--dry-run"], ["--context", "go"]] defaultFlags "-race" ["./..."]
    (by intro g hgg
        simp only [List.mem_cons, List.mem_singleton] at hgg
        rcases hgg with rfl | rfl | h
        · exact TbFlagTokens.dryRun
        · exact TbFlagTokens.forceContext "go"
        · cases h)
    (by decide) (by decide)
  simpa using h

/-- Scanning a replicated token with a predicate that rejects it finds
nothing. -/
theorem any_replicate_false (n : Nat) (s : String) (f : String → Bool)
    (h : f s = false) : (List.replicate n s).any f = false := by
  induction n with
  | zero => rfl
  | succ k ih => simp [List.replicate_succ, List.any_cons, h, ih]

/-- When argument validation fails, the dispatch reports the
argument-validation failure (whatever the context-resolution
environment). -/
theorem dispatch_invalid_args (env : DispatchEnv) (args : List String)
    (fl : TbFlags) (name : String) (rest : List String) (e : ArgError)
    (hparse : parseLoop env.pd defaultFlags args = .parsed fl name rest)
    (hnohelp : rest.any (fun a => a = "--help" ∨ a = "-h") = false)
    (hval : validateArguments rest = some e) :
    dispatch env args = .fatal (.invalidArguments e) := by
  simp only [dispatch, hparse]
  rw [hnohelp]
  simp [hval]

/-- When validation passes and no context can be resolved, the dispatch
reports the context-resolution failure. -/
theorem dispatch_no_context (env : DispatchEnv) (args : List String)
    (fl : TbFlags) (name : String) (rest : List String) (cfg : GoConfig)
    (hparse : parseLoop env.pd defaultFlags args = .parsed fl name rest)
    (hnohelp : rest.any (fun a => a = "--help" ∨ a = "-h") = false)
    (hval : validateArguments rest = none)
    (hcfg : env.loadConfig fl.cfgFile = .ok cfg)
    (hforce : fl.forceCtx = "") (hplug : env.pluginDetect = none)
    (hbuiltin : env.builtinDetect = none) :
    dispatch env args = .fatal .contextDetectFailed := by
  simp only [dispatch, hparse]
  rw [hnohelp]
  simp [hval, hcfg, hforce, hplug, hbuiltin]

/-- Claim C3 (amended): the dispatcher's pipeline is strictly sequential in the
order parse, validate arguments, resolve context, resolve command, execute â
argument validation comes before context resolution.  First conjunct: when
the caller arguments exceed the configured bounds, the reported fatal
failure is the argument-validation failure, whatever the context-resolution
environment (even one in which no context can be resolved).  Second
conjunct: when validation passes and no context can be resolved (no forced
context, no plugin detection, no built-in detection), the reported fatal
failure is the context-resolution failure.  (The claim as frozen puts
context resolution before argument validation; the counterexample below
shows the code validates first.) -/
theorem dispatch_validates_before_detect (env : DispatchEnv)
    (args : List String) (fl : TbFlags) (name : String) (rest : List String)
    (hparse : parseLoop env.pd defaultFlags args = .parsed fl name rest)
    (hnohelp : rest.any (fun a => a = "--help" ∨ a = "-h") = false) :
    (∀ e, validateArguments rest = some e →
      dispatch env args = .fatal (.invalidArguments e))
    ∧ (validateArguments rest = none →
        ∀ cfg, env.loadConfig fl.cfgFile = .ok cfg →
          fl.forceCtx = "" → env.pluginDetect = none →
          env.builtinDetect = none →
          dispatch env args = .fatal .contextDetectFailed) := by
  constructor
  · intro e hval
    exact dispatch_invalid_args env args fl name rest e hparse hnohelp hval
  · intro hval cfg hcfg hforce hplug hbuiltin
    exact dispatch_no_context env args fl name rest cfg hparse hnohelp hval
      hcfg hforce hplug hbuiltin

/-- Counterexample to C3 as frozen: with no resolvable context and 101
caller arguments, the reported fatal failure is the argument-count failure,
not the context-resolution failure. -/
theorem dispatch_order_counterexample :
    dispatch envNoContext argsTooManyInvocation =
      .fatal (.invalidArguments (.tooMany 101))
    ∧ dispatch envNoContext argsTooManyInvocation ≠
        .fatal .contextDetectFailed := by
  have hparse : parseLoop noDuration defaultFlags argsTooManyInvocation =
      .parsed defaultFlags "build" (List.replicate 101 "x") := by
    simp [argsTooManyInvocation, parseLoop]
  have hhelp : (List.replicate 101 "x").any
      (fun a => a = "--help" ∨ a = "-h") = false :=
    any_replicate_false 101 "x" _ (by decide)
  have hval : validateArguments (List.replicate 101 "x") =
      some (.tooMany 101) := by
    simp [validateArguments, MaxArgumentCount]
  have h1 : dispatch envNoContext argsTooManyInvocation =
      .fatal (.invalidArguments (.tooMany 101)) :=
    dispatch_invalid_args envNoContext argsTooManyInvocation defaultFlags
      "build" (List.replicate 101 "x") (.tooMany 101) hparse hhelp hval
  exact ⟨h1, by rw [h1]; simp⟩

/-- Witness for the amended C3: with a perfectly resolvable `go` context,
101 caller arguments still make the dispatcher fail with the
argument-validation error before context resolution is consulted. -/
theorem dispatch_validates_before_detect_witness :
    dispatch envGoBuild ("build" :: List.replicate 101 "y") =
      .fatal (.invalidArguments (.tooMany 101)) := by
  refine (dispatch_validates_before_detect envGoBuild
    ("build" :: List.replicate 101 "y") defaultFlags "build"
    (List.replicate 101 "y")
    (by simp [parseLoop])
    (any_replicate_false 101 "y" _ (by decide))).1
    (.tooMany 101)
    (by simp [validateArguments, MaxArgumentCount])

/-- A namespaced key `pname:c` is never equal to the bare name `c` (the
prefix makes it strictly longer). -/
theorem ns_ne_bare (pname c : String) : pname ++ ":" ++ c ≠ c := by
  intro h
  have hlen := congrArg String.length h
  simp [String.length_append] at hlen
  exact absurd hlen.2 (by decide)

/-- Folding over plugins distributes over list append. -/
theorem getContextsLoop_append (xs ys : List Plugin) :
    ∀ acc, getContextsLoop acc (xs ++ ys) =
      getContextsLoop (getContextsLoop acc xs) ys := by
  induction xs with
  | nil => intro acc; rfl
  | cons p rest ih =>
    intro acc
    simp only [List.cons_append, getContextsLoop]
    exact ih _

/-- A key that no entry of the plugin writes (neither as namespaced key nor
as bare name) keeps its accumulator value, absent case. -/
theorem addPluginContexts_frame_none (pname k : String) :
    ∀ (ctxs : List (String × ContextConfig)) (acc : GoCtxMap),
      (∀ e ∈ ctxs, pname ++ ":" ++ e.1 ≠ k ∧ e.1 ≠ k) →
      addPluginContexts pname acc ctxs k = acc k := by
  intro ctxs
  induction ctxs with
  | nil => intro acc _; rfl
  | cons e rest ih =>
    intro acc h
    obtain ⟨hns, hbare⟩ := h e (List.mem_cons_self _ _)
    have hns' := Ne.symm hns
    have hbare' := Ne.symm hbare
    have hrest := fun e' he' => h e' (List.mem_cons_of_mem _ he')
    cases hm : (mapInsert acc (pname ++ ":" ++ e.1) e.2) e.1 with
    | some v =>
      simp only [addPluginContexts, hm]
      exact (ih _ hrest).trans (by simp [mapInsert, hns'])
    | none =>
      simp only [addPluginContexts, hm]
      exact (ih _ hrest).trans (by simp [mapInsert, hns', hbare'])

/-- A key already present keeps its value across a plugin whose namespaced
keys avoid it (the conditional bare write can never overwrite a present
key). -/
theorem addPluginContexts_frame_some (pname k : String) (v : ContextConfig) :
    ∀ (ctxs : List (String × ContextConfig)) (acc : GoCtxMap),
      acc k = some v →
      (∀ e ∈ ctxs, pname ++ ":" ++ e.1 ≠ k) →
      addPluginContexts pname acc ctxs k = some v := by
  intro ctxs
  induction ctxs with
  | nil => intro acc hv _; exact hv
  | cons e rest ih =>
    intro acc hv h
    have hns' := Ne.symm (h e (List.mem_cons_self _ _))
    have hrest := fun e' he' => h e' (List.mem_cons_of_mem _ he')
    have hacc1 : (mapInsert acc (pname ++ ":" ++ e.1) e.2) k = some v := by
      simp [mapInsert, hns', hv]
    cases hm : (mapInsert acc (pname ++ ":" ++ e.1) e.2) e.1 with
    | some w =>
      simp only [addPluginContexts, hm]
      exact ih _ hacc1 hrest
    | none =>
      simp only [addPluginContexts, hm]
      refine ih _ ?_ hrest
      by_cases hk : k = e.1
      · rw [hk] at hacc1
        rw [hacc1] at hm
        cases hm
      · simp [mapInsert, hk, hns', hv]

/-- The namespaced write of an entry lands and survives the remainder of
the plugin, provided the later entries' namespaced keys differ. -/
theorem addPluginContexts_hit_ns (pname : String)
    (e : String × ContextConfig) (post : List (String × ContextConfig)) :
    ∀ (pre : List (String × ContextConfig)) (acc : GoCtxMap),
      (∀ e' ∈ post, pname ++ ":" ++ e'.1 ≠ pname ++ ":" ++ e.1) →
      addPluginContexts pname acc (pre ++ e :: post)
        (pname ++ ":" ++ e.1) = some e.2 := by
  intro pre
  induction pre with
  | nil =>
    intro acc hpost
    have hhit : (mapInsert acc (pname ++ ":" ++ e.1) e.2)
        (pname ++ ":" ++ e.1) = some e.2 := by simp [mapInsert]
    cases hm : (mapInsert acc (pname ++ ":" ++ e.1) e.2) e.1 with
    | some v =>
      simp only [List.nil_append, addPluginContexts, hm]
      exact addPluginContexts_frame_some pname _ e.2 post _ hhit hpost
    | none =>
      simp only [List.nil_append, addPluginContexts, hm]
      refine addPluginContexts_frame_some pname _ e.2 post _ ?_ hpost
      simp [mapInsert, ns_ne_bare pname e.1, hhit]
  | cons a pre' ih =>
    intro acc hpost
    cases hm : (mapInsert acc (pname ++ ":" ++ a.1) a.2) a.1 with
    | some v =>
      simp only [List.cons_append, addPluginContexts, hm]
      exact ih _ hpost
    | none =>
      simp only [List.cons_append, addPluginContexts, hm]
      exact ih _ hpost

/-- The conditional bare write of an entry lands when the bare name is
still absent, and survives the remainder of the plugin. -/
theorem addPluginContexts_hit_bare (pname : String)
    (e : String × ContextConfig) (post : List (String × ContextConfig)) :
    ∀ (pre : List (String × ContextConfig)) (acc : GoCtxMap),
      acc e.1 = none →
      (∀ e' ∈ pre, pname ++ ":" ++ e'.1 ≠ e.1 ∧ e'.1 ≠ e.1) →
      (∀ e' ∈ post, pname ++ ":" ++ e'.1 ≠ e.1) →
      addPluginContexts pname acc (pre ++ e :: post) e.1 = some e.2 := by
  intro pre
  induction pre with
  | nil =>
    intro acc hacc _ hpost
    have hself' := Ne.symm (ns_ne_bare pname e.1)
    have hacc1 : (mapInsert acc (pname ++ ":" ++ e.1) e.2) e.1 = none := by
      simp [mapInsert, hself', hacc]
    simp only [List.nil_append, addPluginContexts, hacc1]
    refine addPluginContexts_frame_some pname _ e.2 post _ ?_ hpost
    simp [mapInsert]
  | cons a pre' ih =>
    intro acc hacc hpre hpost
    obtain ⟨hans, habare⟩ := hpre a (List.mem_cons_self _ _)
    have hans' := Ne.symm hans
    have habare' := Ne.symm habare
    have hpre' := fun e' he' => hpre e' (List.mem_cons_of_mem _ he')
    have hkeep : ∀ acc2 : GoCtxMap, acc2 e.1 = acc e.1 →
        acc2 e.1 = none := fun acc2 h2 => h2.trans hacc
    cases hm : (mapInsert acc (pname ++ ":" ++ a.1) a.2) a.1 with
    | some v =>
      simp only [List.cons_append, addPluginContexts, hm]
      exact ih _ (hkeep _ (by simp [mapInsert, hans'])) hpre' hpost
    | none =>
      simp only [List.cons_append, addPluginContexts, hm]
      exact ih _ (hkeep _ (by simp [mapInsert, hans', habare'])) hpre' hpost

/-- Outer frame, absent case: a key written by no plugin of the list keeps
its accumulator value. -/
theorem getContextsLoop_frame_none (k : String) :
    ∀ (ps : List Plugin) (acc : GoCtxMap),
      (∀ p ∈ ps, ∀ e ∈ p.contexts, p.name ++ ":" ++ e.1 ≠ k ∧ e.1 ≠ k) →
      getContextsLoop acc ps k = acc k := by
  intro ps
  induction ps with
  | nil => intro acc _; rfl
  | cons p rest ih =>
    intro acc h
    simp only [getContextsLoop]
    exact (ih _ (fun q hq e he => h q (List.mem_cons_of_mem _ hq) e he)).trans
      (addPluginContexts_frame_none p.name k p.contexts acc
        (fun e he => h p (List.mem_cons_self _ _) e he))

/-- Outer frame, present case: a present key survives plugins whose
namespaced keys avoid it. -/
theorem getContextsLoop_frame_some (k : String) (v : ContextConfig) :
    ∀ (ps : List Plugin) (acc : GoCtxMap),
      acc k = some v →
      (∀ p ∈ ps, ∀ e ∈ p.contexts, p.name ++ ":" ++ e.1 ≠ k) →
      getContextsLoop acc ps k = some v := by
  intro ps
  induction ps with
  | nil => intro acc hv _; exact hv
  | cons p rest ih =>
    intro acc hv h
    simp only [getContextsLoop]
    exact ih _
      (addPluginContexts_frame_some p.name k v p.contexts acc hv
        (fun e he => h p (List.mem_cons_self _ _) e he))
      (fun q hq e he => h q (List.mem_cons_of_mem _ hq) e he)

/-- Claim C6 (amended): in `GetContexts`, provided the relevant keys do not
collide (which holds whenever plugin and context names are colon-free),
for any plugin `p` contributing context entry `e`: (first conjunct) the
namespaced key `p.name:e.1` maps to `p`'s context whenever no later entry
of `p` and no later plugin produces the same namespaced key; (second
conjunct) the bare key `e.1` maps to the context of the earliest-registered
plugin contributing it — earlier plugins do not contribute `e.1` and no
namespaced key anywhere equals it — and later plugins' same-named contexts
never overwrite it (the hypotheses allow later plugins to contribute the
same bare name).  (The claim as frozen asserts this for every set of
registered plugins; the counterexample below shows colon-bearing names can
make a later plugin's namespaced write overwrite an earlier entry.) -/
theorem get_contexts_dual_registration (P A B : List Plugin) (p : Plugin)
    (pre post : List (String × ContextConfig)) (e : String × ContextConfig)
    (hP : P = A ++ p :: B) (hp : p.contexts = pre ++ e :: post) :
    ((∀ e' ∈ post, p.name ++ ":" ++ e'.1 ≠ p.name ++ ":" ++ e.1) →
     (∀ q ∈ B, ∀ e' ∈ q.contexts,
        q.name ++ ":" ++ e'.1 ≠ p.name ++ ":" ++ e.1) →
     GetContexts P (p.name ++ ":" ++ e.1) = some e.2)
    ∧
    ((∀ q ∈ A, ∀ e' ∈ q.contexts,
        q.name ++ ":" ++ e'.1 ≠ e.1 ∧ e'.1 ≠ e.1) →
     (∀ e' ∈ pre, p.name ++ ":" ++ e'.1 ≠ e.1 ∧ e'.1 ≠ e.1) →
     (∀ e' ∈ post, p.name ++ ":" ++ e'.1 ≠ e.1) →
     (∀ q ∈ B, ∀ e' ∈ q.contexts, q.name ++ ":" ++ e'.1 ≠ e.1) →
     GetContexts P e.1 = some e.2) := by
  have hsplit : ∀ k, GetContexts P k =
      getContextsLoop
        (addPluginContexts p.name (getContextsLoop mapEmpty A) p.contexts)
        B k := by
    intro k
    rw [hP, GetContexts, getContextsLoop_append]
    rfl
  constructor
  · intro hpost hB
    rw [hsplit, hp]
    refine getContextsLoop_frame_some _ e.2 B _ ?_
      (fun q hq e' he' => hB q hq e' he')
    exact addPluginContexts_hit_ns p.name e post pre _ hpost
  · intro hA hpre hpost hB
    rw [hsplit, hp]
    refine getContextsLoop_frame_some _ e.2 B _ ?_
      (fun q hq e' he' => hB q hq e' he')
    refine addPluginContexts_hit_bare p.name e post pre _ ?_ hpre hpost
    exact (getContextsLoop_frame_none e.1 A mapEmpty hA).trans rfl

/-- Counterexample to C6 as frozen: plugin `a` contributes context `b:c`
(namespaced key `a:b:c` mapped to its context `ccOne`), but the later
plugin `a:b` contributing context `c` produces the same namespaced key and
overwrites it, so the aggregate maps `a:b:c` to the later plugin's context
instead of `a`'s. -/
theorem get_contexts_dual_counterexample :
    GetContexts [pluginColonCtx, pluginColonName] ("a" ++ ":" ++ "b:c") =
      some ccTwo
    ∧ ccTwo ≠ ccOne := by
  exact ⟨by decide, by decide⟩

/-- Witness for the amended C6: with colon-free names, `p2:shared` maps to
`pluginP2`'s context and the bare `shared` keeps the earliest contributor
`pluginP1`'s context even though `pluginP2` also contributes `shared`. -/
theorem get_contexts_dual_registration_witness :
    GetContexts [pluginP1, pluginP2] ("p2" ++ ":" ++ "shared") = some ccThree
    ∧ GetContexts [pluginP1, pluginP2] "shared" = some ccTwo := by
  constructor
  · exact (get_contexts_dual_registration [pluginP1, pluginP2] [pluginP1] []
      pluginP2 [] [] ("shared", ccThree) rfl rfl).1
      (by intro e' he'; cases he') (by intro q hq; cases hq)
  · exact (get_contexts_dual_registration [pluginP1, pluginP2] [] [pluginP2]
      pluginP1 [("c1", ccOne)] [] ("shared", ccTwo) rfl rfl).2
      (by intro q hq; cases hq)
      (by decide)
      (by intro e' he'; cases he')
      (by decide)
